import Mathlib

/-!
# CTProto — verification of the protocol core

A shallow embedding of the CTProto protocol engine (codex-team/ctproto):
the binary chunk-frame layout, the server-side upload reassembler
(`handleBufferMessage`, `updateFileData`, `isFileFullyUploaded`), the
server-side message validator (`validateMessage`, `validateBufferMessage`),
the server connection handler (`onmessage`, the 3-second auth timer), the
client-side upload driver (`sendFile`, `sendChunk`,
`onChunkResponseMessage`) and the client-side pending-request table
(`send`, `onMessage`).

Buffers are modelled as lists of bytes (`List Nat`, each element < 256 at
the call sites we care about); JavaScript numbers read out of buffers are
modelled as `Int` with explicit two's-complement interpretation of 32-bit
reads; JSON values are a small inductive `Json`; `undefined` is `Option`.
`JSON.parse` / `JSON.stringify` of sidecar strings is external library
code, so frames are modelled at the decoded level where the claims speak
of decoded fields, and at the raw byte level where they speak of the wire
layout.
-/

namespace CTProto

/-! ## Bytes and 32-bit integer reads/writes (Node `Buffer`) -/

/-- A byte buffer (Node `Buffer` / `Uint8Array`): a list of byte values. -/
abbrev Bytes := List Nat

/-- Reading past the end of a JS typed array yields `undefined`; the buffer
reads below are only used in-bounds, where `getD … 0` agrees with the
source. -/
def byteGetD (b : Bytes) (i : Nat) : Nat := b.getD i 0

/-- Unsigned little-endian 32-bit read (`Buffer.readUInt32LE`). -/
def readUInt32LE (b : Bytes) (off : Nat) : Nat :=
  byteGetD b off + 2 ^ 8 * byteGetD b (off + 1) +
    2 ^ 16 * byteGetD b (off + 2) + 2 ^ 24 * byteGetD b (off + 3)

/-- Unsigned big-endian 32-bit read (`Buffer.readUInt32BE`). -/
def readUInt32BE (b : Bytes) (off : Nat) : Nat :=
  2 ^ 24 * byteGetD b off + 2 ^ 16 * byteGetD b (off + 1) +
    2 ^ 8 * byteGetD b (off + 2) + byteGetD b (off + 3)

/-- Two's-complement interpretation of an unsigned 32-bit value, as done by
Node's signed `readInt32LE` / `readInt32BE`. -/
def toSigned32 (u : Nat) : Int :=
  if u < 2 ^ 31 then (u : Int) else (u : Int) - 2 ^ 32

/-- `Buffer.readInt32LE` (signed, little-endian). -/
def readInt32LE (b : Bytes) (off : Nat) : Int := toSigned32 (readUInt32LE b off)

/-- `Buffer.readInt32BE` (signed, big-endian). -/
def readInt32BE (b : Bytes) (off : Nat) : Int := toSigned32 (readUInt32BE b off)

/-- `Buffer.writeInt32BE` for a non-negative value, as used by the client's
`sendChunk` (`bufferChunkNumber.writeInt32BE(chunkNumber)`,
`bufferSize.writeInt32BE(chunk.length)`): the four big-endian bytes. -/
def writeUInt32BE (v : Nat) : Bytes :=
  [v / 2 ^ 24 % 2 ^ 8, v / 2 ^ 16 % 2 ^ 8, v / 2 ^ 8 % 2 ^ 8, v % 2 ^ 8]

/-- Byte swap of a 32-bit value: what a little-endian read recovers from a
big-endian write (before sign interpretation). -/
def byteswap32 (v : Nat) : Nat :=
  v / 2 ^ 24 % 2 ^ 8 + 2 ^ 8 * (v / 2 ^ 16 % 2 ^ 8) +
    2 ^ 16 * (v / 2 ^ 8 % 2 ^ 8) + 2 ^ 24 * (v % 2 ^ 8)

/-! ## The binary chunk frame

Layout (src/client/client.ts `sendChunk` together with the
`MessageFactory.packChunk(fileId, data, message)` used by it):
`fileId (10 bytes) ++ chunkNumber (4 bytes, writeInt32BE) ++
 dataSize (4 bytes, writeInt32BE) ++ fileData ++ sidecar`.
-/

/-- The frame built by the client's `sendChunk`: the two 4-byte integers are
written with `writeInt32BE` (big-endian), then `Buffer.concat` with the
file id, chunk data and sidecar message. -/
def clientChunkFrame (fileId : Bytes) (chunkNumber size : Nat)
    (chunk msg : Bytes) : Bytes :=
  fileId ++ writeUInt32BE chunkNumber ++ writeUInt32BE size ++ chunk ++ msg

/-- `handleBufferMessage` (server): `message.readInt32LE(10)`. -/
def serverChunkNumber (frame : Bytes) : Int := readInt32LE frame 10

/-- `handleBufferMessage` (server): `message.readInt32LE(14)`. -/
def serverSize (frame : Bytes) : Int := readInt32LE frame 14

/-- `validateBufferMessage` (server validator): `message.readInt32BE(14)`.
This is the raw read; the bounds-checked version used for claim C9 is
`validateBufferMessage` below. -/
def validatorSize (frame : Bytes) : Int := readInt32BE frame 14

lemma writeUInt32BE_length (v : Nat) : (writeUInt32BE v).length = 4 := rfl

lemma byteGetD_append_right (l₁ l₂ : Bytes) (n : Nat) (h : l₁.length ≤ n) :
    byteGetD (l₁ ++ l₂) n = byteGetD l₂ (n - l₁.length) := by
  simp [byteGetD, List.getD_eq_getElem?_getD, List.getElem?_append_right h]

lemma byteGetD_append_left (l₁ l₂ : Bytes) (n : Nat) (h : n < l₁.length) :
    byteGetD (l₁ ++ l₂) n = byteGetD l₁ n := by
  simp [byteGetD, List.getD_eq_getElem?_getD, List.getElem?_append_left h]

/-- A little-endian read of four big-endian-written bytes recovers the
byte-swapped value. -/
lemma readUInt32LE_writeBE (v : Nat) (rest : Bytes) :
    readUInt32LE (writeUInt32BE v ++ rest) 0 = byteswap32 v := by
  simp [readUInt32LE, writeUInt32BE, byteswap32, byteGetD]

/-- A big-endian read of four big-endian-written bytes recovers the value
modulo 2^32. -/
lemma readUInt32BE_writeBE (v : Nat) (rest : Bytes) (h : v < 2 ^ 32) :
    readUInt32BE (writeUInt32BE v ++ rest) 0 = v := by
  simp only [readUInt32BE, writeUInt32BE, byteGetD]
  simp only [List.cons_append, List.getD_cons_zero, List.getD_cons_succ]
  omega

lemma readUInt32LE_shift (l₁ l₂ : Bytes) (off : Nat) (h : l₁.length ≤ off) :
    readUInt32LE (l₁ ++ l₂) off = readUInt32LE l₂ (off - l₁.length) := by
  have h1 : off + 1 - l₁.length = off - l₁.length + 1 := by omega
  have h2 : off + 2 - l₁.length = off - l₁.length + 2 := by omega
  have h3 : off + 3 - l₁.length = off - l₁.length + 3 := by omega
  simp only [readUInt32LE]
  rw [byteGetD_append_right _ _ _ h, byteGetD_append_right _ _ _ (by omega),
    byteGetD_append_right _ _ _ (by omega), byteGetD_append_right _ _ _ (by omega),
    h1, h2, h3]

lemma readUInt32BE_shift (l₁ l₂ : Bytes) (off : Nat) (h : l₁.length ≤ off) :
    readUInt32BE (l₁ ++ l₂) off = readUInt32BE l₂ (off - l₁.length) := by
  have h1 : off + 1 - l₁.length = off - l₁.length + 1 := by omega
  have h2 : off + 2 - l₁.length = off - l₁.length + 2 := by omega
  have h3 : off + 3 - l₁.length = off - l₁.length + 3 := by omega
  simp only [readUInt32BE]
  rw [byteGetD_append_right _ _ _ h, byteGetD_append_right _ _ _ (by omega),
    byteGetD_append_right _ _ _ (by omega), byteGetD_append_right _ _ _ (by omega),
    h1, h2, h3]

/-- C1 (amended): what each operation actually reads off a frame built by
the client-side chunk sender. The server-side reassembler decodes both
4-byte fields with little-endian reads of the big-endian-written bytes,
i.e. it recovers the byte-swap of the value the client encoded; the
server-side binary validator reads `dataSize` big-endian and so recovers
the encoded value itself. -/
theorem chunk_header_endianness (fileId chunk msg : Bytes) (c n : Nat)
    (hfid : fileId.length = 10) (hc : c < 2 ^ 32) (hn : n < 2 ^ 32) :
    serverChunkNumber (clientChunkFrame fileId c n chunk msg) =
      toSigned32 (byteswap32 c) ∧
    serverSize (clientChunkFrame fileId c n chunk msg) =
      toSigned32 (byteswap32 n) ∧
    validatorSize (clientChunkFrame fileId c n chunk msg) = toSigned32 n := by
  unfold clientChunkFrame serverChunkNumber serverSize validatorSize readInt32LE readInt32BE
  refine ⟨?_, ?_, ?_⟩
  · rw [show fileId ++ writeUInt32BE c ++ writeUInt32BE n ++ chunk ++ msg
        = fileId ++ (writeUInt32BE c ++ (writeUInt32BE n ++ chunk ++ msg)) by simp,
      readUInt32LE_shift _ _ 10 (by omega)]
    simp only [hfid]
    rw [show 10 - 10 = 0 by omega, readUInt32LE_writeBE]
  · rw [show fileId ++ writeUInt32BE c ++ writeUInt32BE n ++ chunk ++ msg
        = (fileId ++ writeUInt32BE c) ++ (writeUInt32BE n ++ (chunk ++ msg)) by simp,
      readUInt32LE_shift _ _ 14 (by simp [hfid, writeUInt32BE_length]),
      show 14 - (fileId ++ writeUInt32BE c).length = 0 by simp [hfid, writeUInt32BE_length],
      readUInt32LE_writeBE]
  · rw [show fileId ++ writeUInt32BE c ++ writeUInt32BE n ++ chunk ++ msg
        = (fileId ++ writeUInt32BE c) ++ (writeUInt32BE n ++ (chunk ++ msg)) by simp,
      readUInt32BE_shift _ _ 14 (by simp [hfid, writeUInt32BE_length]),
      show 14 - (fileId ++ writeUInt32BE c).length = 0 by simp [hfid, writeUInt32BE_length],
      readUInt32BE_writeBE _ _ hn]

/-- C1 witness: instantiating `chunk_header_endianness` at a concrete frame
(file id of ten `a` bytes, chunkNumber 1, dataSize 3, three data bytes). -/
theorem chunk_header_endianness_witness :
    serverChunkNumber (clientChunkFrame (List.replicate 10 97) 1 3 [5, 6, 7] []) =
      toSigned32 (byteswap32 1) ∧
    serverSize (clientChunkFrame (List.replicate 10 97) 1 3 [5, 6, 7] []) =
      toSigned32 (byteswap32 3) ∧
    validatorSize (clientChunkFrame (List.replicate 10 97) 1 3 [5, 6, 7] []) =
      toSigned32 3 :=
  chunk_header_endianness (List.replicate 10 97) [5, 6, 7] [] 1 3
    (by decide) (by decide) (by decide)

/-- C1 counterexample: the claim says the chunkNumber the server decodes
equals the value the client encoded; for the frame encoding chunkNumber 1
the server's reassembler decodes 16777216. -/
theorem chunk_header_roundtrip_counterexample :
    serverChunkNumber (clientChunkFrame (List.replicate 10 97) 1 3 [5, 6, 7] []) =
      16777216 ∧ (16777216 : Int) ≠ 1 := by
  constructor
  · decide
  · decide

/-! ## Server-side buffer insertion (`updateFileData` and the fresh-slot
allocation path of `handleBufferMessage`) -/

/-- `Buffer.alloc(n)`: a zero-filled buffer. -/
def zeros (n : Nat) : Bytes := List.replicate n 0

/-- `src.copy(target, targetStart)` (Node): write the bytes of `src` into
`target` starting at `targetStart`, truncating at the end of `target`.
Every use in the source satisfies `targetStart + src.length ≤
target.length`, where no truncation happens. -/
def bufCopy (src target : Bytes) (targetStart : Nat) : Bytes :=
  target.take targetStart ++ src.take (target.length - targetStart) ++
    target.drop (targetStart + src.length)

/-- `updateFileData(file, chunkSlice, fileChunk)` (server): if the stored
buffer is shorter than `chunkSlice + fileChunk.length`, allocate a buffer
of exactly that length, copy the old contents to its start and the chunk
at `chunkSlice`; otherwise copy the chunk into the buffer in place. -/
def updateFileData (file : Bytes) (chunkSlice : Nat) (fileChunk : Bytes) : Bytes :=
  if file.length < chunkSlice + fileChunk.length then
    let fileData := bufCopy file (zeros (chunkSlice + fileChunk.length)) 0
    bufCopy fileChunk fileData chunkSlice
  else
    bufCopy fileChunk file chunkSlice

/-- The fresh-slot path of `handleBufferMessage`:
`Buffer.alloc(fileChunk.length + chunkOffset)` followed by
`fileChunk.copy(fileData, chunkOffset)`. -/
def allocInsert (chunkOffset : Nat) (fileChunk : Bytes) : Bytes :=
  bufCopy fileChunk (zeros (fileChunk.length + chunkOffset)) chunkOffset

lemma bufCopy_length (src target : Bytes) (s : Nat)
    (h : s + src.length ≤ target.length) :
    (bufCopy src target s).length = target.length := by
  simp only [bufCopy, List.length_append, List.length_take, List.length_drop]
  omega

lemma bufCopy_getD (src target : Bytes) (s i : Nat)
    (h : s + src.length ≤ target.length) :
    byteGetD (bufCopy src target s) i =
      if i < s then byteGetD target i
      else if i < s + src.length then byteGetD src (i - s)
      else byteGetD target i := by
  have htake : src.take (target.length - s) = src :=
    List.take_of_length_le (by omega)
  have hts : (target.take s).length = s := by
    simp only [List.length_take]
    omega
  have hcat : (target.take s ++ src).length = s + src.length := by
    simp [hts]
  simp only [bufCopy, htake]
  rcases Nat.lt_or_ge i s with hi | hi
  · rw [byteGetD_append_left _ _ _ (by omega),
      byteGetD_append_left _ _ _ (by omega)]
    simp only [if_pos hi, byteGetD, List.getD_eq_getElem?_getD, List.getElem?_take]
  · rcases Nat.lt_or_ge i (s + src.length) with hi2 | hi2
    · rw [byteGetD_append_left _ _ _ (by omega),
        byteGetD_append_right _ _ _ (by omega)]
      simp only [if_neg (by omega : ¬ i < s), if_pos hi2, hts]
    · rw [byteGetD_append_right _ _ _ (by omega)]
      simp only [if_neg (by omega : ¬ i < s), if_neg (by omega : ¬ i < s + src.length), hcat]
      simp only [byteGetD, List.getD_eq_getElem?_getD, List.getElem?_drop]
      congr 2
      omega

lemma zeros_getD (n i : Nat) : byteGetD (zeros n) i = 0 := by
  simp only [byteGetD, zeros, List.getD_eq_getElem?_getD]
  rcases Nat.lt_or_ge i n with hi | hi
  · simp [List.getElem?_replicate, hi]
  · rw [List.getElem?_eq_none (by simp; omega)]
    rfl

/-- C2: the chunk insertion performed by the reassembler. Both the
`updateFileData` path (slot already exists) and the allocation path (fresh
slot) place the chunk data `d` exactly at byte offset `n * c`
(`chunkOffset = size * chunkNumber`); a too-short buffer is grown to
exactly `n * c + d.length`, existing bytes are preserved, new bytes are
zero, and no byte outside `[n*c, n*c + d.length)` is modified. -/
theorem chunk_insert_at_offset (file d : Bytes) (n c : Nat) :
    ((updateFileData file (n * c) d).length = max file.length (n * c + d.length)) ∧
    (∀ i, i < d.length →
      byteGetD (updateFileData file (n * c) d) (n * c + i) = byteGetD d i) ∧
    (∀ i, (i < n * c ∨ n * c + d.length ≤ i) → i < file.length →
      byteGetD (updateFileData file (n * c) d) i = byteGetD file i) ∧
    (∀ i, (i < n * c ∨ n * c + d.length ≤ i) → file.length ≤ i →
      byteGetD (updateFileData file (n * c) d) i = 0) ∧
    ((allocInsert (n * c) d).length = d.length + n * c) ∧
    (∀ i, i < d.length →
      byteGetD (allocInsert (n * c) d) (n * c + i) = byteGetD d i) ∧
    (∀ i, i < n * c → byteGetD (allocInsert (n * c) d) i = 0) := by
  set off := n * c with hoff
  have hzlen : (zeros (off + d.length)).length = off + d.length := by
    simp [zeros]
  have hz2len : (zeros (d.length + off)).length = d.length + off := by
    simp [zeros]
  have halloc : ∀ i, byteGetD (allocInsert off d) i =
      if i < off then 0 else if i < off + d.length then byteGetD d (i - off) else 0 := by
    intro i
    unfold allocInsert
    rw [bufCopy_getD _ _ _ _ (by omega)]
    simp only [hz2len] at *
    by_cases h1 : i < off
    · simp [h1, zeros_getD]
    · by_cases h2 : i < off + d.length
      · simp [h1, h2]
      · simp [h1, h2, zeros_getD]
  constructor
  · unfold updateFileData
    by_cases hlen : file.length < off + d.length
    · rw [if_pos hlen, bufCopy_length _ _ _ (by rw [bufCopy_length _ _ _ (by omega)]; omega),
        bufCopy_length _ _ _ (by omega)]
      simp only [hzlen]
      omega
    · rw [if_neg hlen, bufCopy_length _ _ _ (by omega)]
      omega
  refine ⟨?_, ?_, ?_, ?_, ?_, ?_⟩
  · intro i hi
    unfold updateFileData
    by_cases hlen : file.length < off + d.length
    · rw [if_pos hlen, bufCopy_getD _ _ _ _
        (by rw [bufCopy_length _ _ _ (by omega)]; omega)]
      simp only [if_neg (by omega : ¬ off + i < off), if_pos (by omega : off + i < off + d.length)]
      congr 1
      omega
    · rw [if_neg hlen, bufCopy_getD _ _ _ _ (by omega)]
      simp only [if_neg (by omega : ¬ off + i < off), if_pos (by omega : off + i < off + d.length)]
      congr 1
      omega
  · intro i hout hlt
    unfold updateFileData
    by_cases hlen : file.length < off + d.length
    · rw [if_pos hlen, bufCopy_getD _ _ _ _
        (by rw [bufCopy_length _ _ _ (by omega)]; omega)]
      have : ¬ (¬ i < off ∧ i < off + d.length) := by omega
      by_cases h1 : i < off
      · simp only [if_pos h1]
        rw [bufCopy_getD _ _ _ _ (by omega)]
        simp [hzlen, hlt, if_neg (by omega : ¬ i < 0)]
      · simp only [if_neg h1, if_neg (by omega : ¬ i < off + d.length)]
        rw [bufCopy_getD _ _ _ _ (by omega)]
        simp [hzlen, hlt, if_neg (by omega : ¬ i < 0)]
    · rw [if_neg hlen, bufCopy_getD _ _ _ _ (by omega)]
      by_cases h1 : i < off
      · simp [h1]
      · simp [h1, if_neg (by omega : ¬ i < off + d.length)]
  · intro i hout hge
    unfold updateFileData
    by_cases hlen : file.length < off + d.length
    · rw [if_pos hlen, bufCopy_getD _ _ _ _
        (by rw [bufCopy_length _ _ _ (by omega)]; omega)]
      by_cases h1 : i < off
      · simp only [if_pos h1]
        rw [bufCopy_getD _ _ _ _ (by omega)]
        simp [hzlen, if_neg (by omega : ¬ i < 0), if_neg (by omega : ¬ i < file.length),
          zeros_getD]
      · simp only [if_neg h1, if_neg (by omega : ¬ i < off + d.length)]
        rw [bufCopy_getD _ _ _ _ (by omega)]
        simp [hzlen, if_neg (by omega : ¬ i < 0), if_neg (by omega : ¬ i < file.length),
          zeros_getD]
    · -- the buffer is long enough: every index ≥ file.length would be out of
      -- bounds of the unchanged buffer, whose length is file.length
      rw [if_neg hlen, bufCopy_getD _ _ _ _ (by omega)]
      have hob : byteGetD file i = 0 := by
        simp [byteGetD, List.getD_eq_getElem?_getD, List.getElem?_eq_none (by simpa using hge)]
      by_cases h1 : i < off
      · simp [h1, hob]
      · simp [h1, if_neg (by omega : ¬ i < off + d.length), hob]
  · unfold allocInsert
    rw [bufCopy_length _ _ _ (by omega)]
    exact hz2len
  · intro i hi
    rw [halloc]
    simp only [if_neg (by omega : ¬ off + i < off), if_pos (by omega : off + i < off + d.length)]
    congr 1
    omega
  · intro i hi
    rw [halloc]
    simp [hi]

/-- C2 witness: `chunk_insert_at_offset` instantiated at a concrete buffer
(`file = [1,2]`, chunk `[9,9,9]` of size 3 inserted as chunk 1, offset 3),
with the hypothesised index facts discharged concretely. -/
theorem chunk_insert_at_offset_witness :
    (updateFileData [1, 2] (3 * 1) [9, 9, 9]).length = max 2 6 ∧
    byteGetD (updateFileData [1, 2] (3 * 1) [9, 9, 9]) (3 * 1 + 0) = byteGetD [9, 9, 9] 0 ∧
    byteGetD (updateFileData [1, 2] (3 * 1) [9, 9, 9]) 1 = byteGetD [1, 2] 1 ∧
    byteGetD (updateFileData [1, 2] (3 * 1) [9, 9, 9]) 2 = 0 := by
  obtain ⟨h1, h2, h3, h4, _, _, _⟩ := chunk_insert_at_offset [1, 2] [9, 9, 9] 3 1
  refine ⟨by simpa using h1, h2 0 (by decide), h3 1 (by decide) (by decide),
    h4 2 (by decide) (by decide)⟩

/-! ## JSON values

A small model of parsed JSON. JavaScript `undefined` is represented by
`Option.none` wherever a field may be absent; `obj` field order is the
insertion order used by `JSON.stringify`. -/

inductive Json where
  | null : Json
  | bool : Bool → Json
  | num : Int → Json
  | str : String → Json
  | arr : List Json → Json
  | obj : List (String × Json) → Json

/-- Property access `j[k]` on a parsed JSON value: a key lookup on objects,
`undefined` (`none`) on non-objects other than `null` (access on `null`
throws, which is handled separately where it can occur). -/
def jLookup (j : Json) (k : String) : Option Json :=
  match j with
  | .obj fields => (fields.find? (fun p => p.1 == k)).map (·.2)
  | _ => none

/-- Numeric JSON field as a chunk count (the source stores `payload.chunks`
untyped; every producer writes a non-negative number there). -/
def jNat? (j : Option Json) : Option Nat :=
  match j with
  | some (.num v) => if v < 0 then none else some v.toNat
  | _ => none

/-- String JSON field (the source stores `payload.type` untyped; every
producer writes a string there). -/
def jStr? (j : Option Json) : Option String :=
  match j with
  | some (.str s) => some s
  | _ => none

/-- `MessageFactory.createChunkMessage(type?, payload?, chunks?)`: the chunk
sidecar. `JSON.stringify` drops `undefined` fields, so absent arguments do
not appear; `messageId` is the fresh nanoid, passed here as a parameter
(id generation is an external collaborator). -/
def createChunkMessage (type : Option String) (payload : Option Json)
    (chunks : Option Nat) (messageId : String) : Json :=
  Json.obj
    ((match type with | some t => [("type", Json.str t)] | none => []) ++
     (match payload with | some p => [("payload", p)] | none => []) ++
     (match chunks with | some n => [("chunks", Json.num n)] | none => []) ++
     [("messageId", Json.str messageId)])

/-! ## Server-side upload reassembler (`handleBufferMessage`) -/

/-- One server-side upload slot (`UploadingFile` in types/file.ts): `type`,
`payload` and `chunks` are `undefined` until a chunk-0 sidecar supplies
them; `uploadedChunks` is the sparse boolean array (missing entries are
falsy, modelled by padding with `false`); `timerArmed` models
`uploadingWaitingTimeoutId` being set. -/
structure UploadingFile where
  id : String
  type : Option String := none
  payload : Option Json := none
  file : Bytes := []
  chunks : Option Nat := none
  uploadedChunks : List Bool := []
  timerArmed : Bool := false

/-- `file.uploadedChunks[chunkNumber] = true` on a sparse JS array:
pad with `false` (reading a hole yields falsy `undefined`) and set. -/
def markChunk (l : List Bool) (i : Nat) : List Bool :=
  (l ++ List.replicate (i + 1 - l.length) false).set i true

/-- Reading the sparse array: holes and out-of-bounds reads are falsy. -/
def chunkAt (l : List Bool) (i : Nat) : Bool := l.getD i false

/-- `isFileFullyUploaded(file)` (server): falsy `file.chunks` (absent, or
declared 0) means not uploaded; otherwise every index in
`[0, file.chunks)` must be marked. -/
def isFileFullyUploaded (f : UploadingFile) : Bool :=
  match f.chunks with
  | none => false
  | some n => if n = 0 then false else (List.range n).all (fun i => chunkAt f.uploadedChunks i)

/-- The assembled file request `{type, payload, file}` handed to
`onUploadMessage`. -/
structure FileRequest where
  type : Option String
  payload : Option Json
  file : Bytes

/-- The payload of the per-chunk response built in `handleBufferMessage`:
`{chunkNumber, type: file.type, fileId: file.id}` (an `undefined` type is
dropped by `JSON.stringify`). -/
def mkChunkResponse (chunkNumber : Nat) (type : Option String) (fileId : String) : Json :=
  Json.obj
    ([("chunkNumber", Json.num chunkNumber)] ++
     (match type with | some t => [("type", Json.str t)] | none => []) ++
     [("fileId", Json.str fileId)])

/-- The state of the slot for `fileId` after the bookkeeping part of
`handleBufferMessage` (lines up to `file.uploadedChunks[chunkNumber] =
true`): either the freshly allocated slot (no slot existed) or the found
slot after `clearTimeout`, the chunk-0 metadata copy, and
`updateFileData`; in both cases with the chunk marked received. -/
def ingestChunk (files : List UploadingFile) (fileId : String)
    (chunkNumber size : Nat) (fileChunk : Bytes) (sidecar : Json) :
    UploadingFile :=
  let chunkOffset := size * chunkNumber
  let f : UploadingFile :=
    match files.find? (fun f => f.id == fileId) with
    | none =>
      if chunkNumber == 0 then
        { id := fileId
          uploadedChunks := []
          file := allocInsert chunkOffset fileChunk
          chunks := jNat? (jLookup sidecar "chunks")
          payload := jLookup sidecar "payload"
          type := jStr? (jLookup sidecar "type") }
      else
        { id := fileId
          uploadedChunks := []
          file := allocInsert chunkOffset fileChunk }
    | some f =>
      let f := { f with timerArmed := false }
      let f :=
        if chunkNumber == 0 then
          { f with chunks := jNat? (jLookup sidecar "chunks")
                   type := jStr? (jLookup sidecar "type")
                   payload := jLookup sidecar "payload" }
        else f
      { f with file := updateFileData f.file chunkOffset fileChunk }
  { f with uploadedChunks := markChunk f.uploadedChunks chunkNumber }

/-- Writing the mutated slot back into `uploadingFiles`: the fresh slot was
pushed at the end, an existing slot is mutated in place through the alias
returned by `find`. -/
def upsertFile (files : List UploadingFile) (fileId : String)
    (f : UploadingFile) : List UploadingFile :=
  if files.any (fun g => g.id == fileId) then
    files.map (fun g => if g.id == fileId then f else g)
  else
    files ++ [f]

/-- The full effect of `handleBufferMessage` at the decoded-frame level:
the updated `uploadingFiles` table, the responses sent through
`client.respond` (correlation id as written — `Option Json` because the
code passes `payload.id`, which may be `undefined`), and the
`onUploadMessage` invocations. `onUpload` is the application handler. -/
def handleBufferMessage (onUpload : FileRequest → Json)
    (files : List UploadingFile) (fileId : String) (chunkNumber size : Nat)
    (fileChunk : Bytes) (sidecar : Json) :
    List UploadingFile × List (Option Json × Json) × List FileRequest :=
  let f1 := ingestChunk files fileId chunkNumber size fileChunk sidecar
  if isFileFullyUploaded f1 then
    let parsed : FileRequest := { type := f1.type, payload := f1.payload, file := f1.file }
    let response := onUpload parsed
    (upsertFile files fileId { f1 with timerArmed := true },
      [(some (Json.str fileId), response)], [parsed])
  else
    (upsertFile files fileId { f1 with timerArmed := true },
      [(jLookup sidecar "id", mkChunkResponse chunkNumber f1.type f1.id)], [])

lemma ingestChunk_id (files : List UploadingFile) (fileId : String)
    (chunkNumber size : Nat) (fileChunk : Bytes) (sidecar : Json) :
    (ingestChunk files fileId chunkNumber size fileChunk sidecar).id = fileId := by
  unfold ingestChunk
  cases hfind : files.find? (fun f => f.id == fileId) with
  | none =>
    by_cases h0 : chunkNumber == 0 <;> simp [hfind, h0]
  | some f =>
    have hid : f.id = fileId := by simpa using List.find?_some hfind
    by_cases h0 : chunkNumber == 0 <;> simp [hfind, h0, hid]

lemma upsertFile_self_mem (files : List UploadingFile) (fileId : String)
    (f : UploadingFile) : f ∈ upsertFile files fileId f := by
  unfold upsertFile
  by_cases h : files.any (fun g => g.id == fileId)
  · rw [if_pos h]
    obtain ⟨g, hg, hgid⟩ := List.any_eq_true.mp h
    exact List.mem_map.mpr ⟨g, hg, by simp [hgid]⟩
  · rw [if_neg h]
    simp

/-- C3 (amended): on the chunk that completes an upload (every index in
`[0, totalChunks)` marked received after ingesting it), the server makes
exactly one `onUploadMessage` invocation with the assembled
`{type, payload, file}`, sends exactly one response whose correlation
`messageId` is the `fileId` and whose payload is the handler's return
value — but it does NOT delete the slot: the slot (with its idle timer
re-armed) is still in the `uploadingFiles` table afterwards. -/
theorem upload_completion_behavior (onUpload : FileRequest → Json)
    (files : List UploadingFile) (fileId : String) (chunkNumber size : Nat)
    (fileChunk : Bytes) (sidecar : Json)
    (h : isFileFullyUploaded
      (ingestChunk files fileId chunkNumber size fileChunk sidecar) = true) :
    let f1 := ingestChunk files fileId chunkNumber size fileChunk sidecar
    let parsed : FileRequest := ⟨f1.type, f1.payload, f1.file⟩
    let r := handleBufferMessage onUpload files fileId chunkNumber size fileChunk sidecar
    r.2.2 = [parsed] ∧
    r.2.1 = [(some (Json.str fileId), onUpload parsed)] ∧
    { f1 with timerArmed := true } ∈ r.1 ∧
    ({ f1 with timerArmed := true } : UploadingFile).id = fileId := by
  intro f1 parsed r
  have hr : r = (upsertFile files fileId { f1 with timerArmed := true },
      [(some (Json.str fileId), onUpload parsed)], [parsed]) := by
    show handleBufferMessage onUpload files fileId chunkNumber size fileChunk sidecar = _
    unfold handleBufferMessage
    rw [if_pos h]
  refine ⟨by rw [hr], by rw [hr], ?_, ?_⟩
  · rw [hr]
    exact upsertFile_self_mem _ _ _
  · exact ingestChunk_id files fileId chunkNumber size fileChunk sidecar

/-- C3 witness: `upload_completion_behavior` applied to a concrete
single-chunk upload (fresh slot, chunk 0 of a 1-chunk file), the
completion hypothesis checked by evaluation. -/
theorem upload_completion_behavior_witness :
    (handleBufferMessage (fun _ => Json.null) [] "abcDEF1234" 0 3 [1, 2, 3]
        (createChunkMessage (some "store") (some (Json.obj [])) (some 1)
          "qwertyuiop")).2.2 =
      [⟨(ingestChunk [] "abcDEF1234" 0 3 [1, 2, 3]
          (createChunkMessage (some "store") (some (Json.obj [])) (some 1)
            "qwertyuiop")).type,
        (ingestChunk [] "abcDEF1234" 0 3 [1, 2, 3]
          (createChunkMessage (some "store") (some (Json.obj [])) (some 1)
            "qwertyuiop")).payload,
        (ingestChunk [] "abcDEF1234" 0 3 [1, 2, 3]
          (createChunkMessage (some "store") (some (Json.obj [])) (some 1)
            "qwertyuiop")).file⟩] :=
  (upload_completion_behavior (fun _ => Json.null) [] "abcDEF1234" 0 3 [1, 2, 3]
    (createChunkMessage (some "store") (some (Json.obj [])) (some 1) "qwertyuiop")
    (by rfl)).1

/-- C3 counterexample: the claim says the slot is deleted as part of
handling the completing chunk; on a concrete completing chunk the slot for
the fileId is still present in the table afterwards. -/
theorem upload_completion_slot_counterexample :
    ((handleBufferMessage (fun _ => Json.null) [] "abcDEF1234" 0 3 [1, 2, 3]
        (createChunkMessage (some "store") (some (Json.obj [])) (some 1)
          "qwertyuiop")).1.any (fun g => g.id == "abcDEF1234")) = true := by
  rfl

/-- C4 (amended): a chunk that does NOT complete the file gets exactly one
per-chunk response with payload `{chunkNumber, type, fileId}`, but its
correlation id is `payload.id` — the `id` property of the sidecar JSON,
which sidecars built by `createChunkMessage` never carry (they carry
`messageId`), so it is `undefined`; the completing chunk gets no per-chunk
response at all (see `upload_completion_behavior`). -/
theorem per_chunk_response_behavior (onUpload : FileRequest → Json)
    (files : List UploadingFile) (fileId : String) (chunkNumber size : Nat)
    (fileChunk : Bytes) (sidecar : Json)
    (h : isFileFullyUploaded
      (ingestChunk files fileId chunkNumber size fileChunk sidecar) = false) :
    let f1 := ingestChunk files fileId chunkNumber size fileChunk sidecar
    let r := handleBufferMessage onUpload files fileId chunkNumber size fileChunk sidecar
    r.2.1 = [(jLookup sidecar "id", mkChunkResponse chunkNumber f1.type f1.id)] ∧
    r.2.2 = [] ∧
    (∀ t p c mid, jLookup (createChunkMessage t p c mid) "id" = none) := by
  intro f1 r
  have hr : r = (upsertFile files fileId { f1 with timerArmed := true },
      [(jLookup sidecar "id", mkChunkResponse chunkNumber f1.type f1.id)], []) := by
    show handleBufferMessage onUpload files fileId chunkNumber size fileChunk sidecar = _
    unfold handleBufferMessage
    rw [if_neg (by rw [h]; exact Bool.false_ne_true)]
  refine ⟨by rw [hr], by rw [hr], ?_⟩
  intro t p c mid
  cases t <;> cases p <;> cases c <;> rfl

/-- C4 witness: `per_chunk_response_behavior` at a concrete chunk 0 of a
2-chunk upload (not completing), the hypothesis checked by evaluation. -/
theorem per_chunk_response_behavior_witness :
    (handleBufferMessage (fun _ => Json.null) [] "abcDEF1234" 0 3 [1, 2, 3]
        (createChunkMessage (some "store") none (some 2) "qwertyuiop")).2.1 =
      [(jLookup (createChunkMessage (some "store") none (some 2) "qwertyuiop") "id",
        mkChunkResponse 0
          (ingestChunk [] "abcDEF1234" 0 3 [1, 2, 3]
            (createChunkMessage (some "store") none (some 2) "qwertyuiop")).type
          (ingestChunk [] "abcDEF1234" 0 3 [1, 2, 3]
            (createChunkMessage (some "store") none (some 2) "qwertyuiop")).id)] :=
  (per_chunk_response_behavior (fun _ => Json.null) [] "abcDEF1234" 0 3 [1, 2, 3]
    (createChunkMessage (some "store") none (some 2) "qwertyuiop") (by rfl)).1

/-- C4 counterexample: for a concrete accepted chunk whose sidecar (built by
`createChunkMessage`) carries `messageId = "qwertyuiop"`, the correlation
id of the per-chunk response is `undefined` (`none`), not that sidecar
`messageId`. -/
theorem per_chunk_response_counterexample :
    ((handleBufferMessage (fun _ => Json.null) [] "abcDEF1234" 0 3 [1, 2, 3]
        (createChunkMessage (some "store") none (some 2) "qwertyuiop")).2.1.map
      Prod.fst) = [none] ∧
    (none : Option Json) ≠ some (Json.str "qwertyuiop") := by
  exact ⟨by rfl, by simp⟩

/-! ## Client-side upload driver (`sendFile` / `sendChunk` /
`onChunkResponseMessage`)

One upload job, with the connection OPEN (the enqueue-while-disconnected
path is not exercised by the claims). `inFlight = some k` models the armed
`responseWaitingTimeoutId` whose closure captured chunk number `k`;
`promise` is the resolution state of the future returned by `sendFile`
(`none` = still pending; JS promise resolution is idempotent); `thrown`
records that an `Error` escaped a callback (a plain `throw`, which does
NOT settle the promise). `reconnectionAttempts` is its initial value 5
(the chunk-resend bound reuses that field). -/

/-- An event delivered to the upload driver: a chunk response from the
server (`onChunkResponseMessage`), or the 5-second resend timer firing. -/
inductive DriverEvent where
  | ack : Nat → Bool → Json → DriverEvent
  | timeout : DriverEvent

structure DriverState where
  alive : Bool
  resendTimes : Nat
  inFlight : Option Nat
  promise : Option Json
  thrown : Bool

/-- `sendChunk(file, chunkNumber, message)` from a state where the job's
resend timer may fire or a response arrives: if `resendTimes > 5` the job
is spliced out of `uploadingFiles` and an `Error` is thrown (no timer is
armed, the promise is untouched); otherwise the chunk is emitted on the
socket and the resend timer is armed for the same chunk number. Returns
the new state and the chunk numbers emitted. -/
def sendChunkStep (s : DriverState) (chunkNumber : Nat) :
    DriverState × List Nat :=
  if s.resendTimes > 5 then
    ({ s with alive := false, thrown := true, inFlight := none }, [])
  else
    ({ s with inFlight := some chunkNumber }, [chunkNumber])

/-- One driver step.

`timeout`: the armed timer fires — its callback calls
`sendChunk(file, chunkNumber, message)` and then increments
`file.resendTimes` (the increment is skipped when `sendChunk` throws).
A cancelled or absent timer never fires.

`ack k isUploaded payload`: `onChunkResponseMessage` — reset
`resendTimes` to 0, clear the resend timer, then either resolve the
promise with the payload and splice the job out (`isUploaded`), or call
`sendChunk(file, k + 1, createChunkMessage())`. A response for a job that
no longer exists throws. -/
def stepDriver (s : DriverState) : DriverEvent → DriverState × List Nat
  | .timeout =>
    match s.inFlight with
    | none => (s, [])
    | some k =>
      if s.resendTimes > 5 then
        -- sendChunk splices the job and throws; the `resendTimes++` after
        -- the sendChunk call inside the timer callback is not reached
        ({ s with alive := false, thrown := true, inFlight := none }, [])
      else
        ({ s with inFlight := some k, resendTimes := s.resendTimes + 1 }, [k])
  | .ack k isUploaded payload =>
    if s.alive then
      let s1 := { s with resendTimes := 0, inFlight := none }
      if isUploaded then
        ({ s1 with
            alive := false
            promise := (match s1.promise with | none => some payload | some p => some p) }, [])
      else
        sendChunkStep s1 (k + 1)
    else
      ({ s with thrown := true }, [])

/-- `sendFile`: record the job (`resendTimes = 0`) and send chunk 0. The
initial state together with the chunk numbers already emitted. -/
def initDriver : DriverState × List Nat :=
  sendChunkStep
    { alive := true
      resendTimes := 0
      inFlight := none
      promise := none
      thrown := false } 0

/-- Run the driver over a list of events, accumulating emitted chunk
numbers. -/
def runDriver (s : DriverState) : List DriverEvent → DriverState × List Nat
  | [] => (s, [])
  | e :: evs =>
    let (s1, out) := stepDriver s e
    let (s2, outs) := runDriver s1 evs
    (s2, out ++ outs)

/-- Event traces made of genuine acknowledgements and timer fires: the
timer fires only while armed, and an acknowledgement carries the chunk
number currently in flight (the server acknowledges the chunk it was
sent; at most one chunk of the job is outstanding at a time). -/
inductive Matched : DriverState → List DriverEvent → Prop where
  | nil (s : DriverState) : Matched s []
  | timeout (s : DriverState) (k : Nat) (evs : List DriverEvent) :
      s.inFlight = some k →
      Matched (stepDriver s .timeout).1 evs →
      Matched s (.timeout :: evs)
  | ack (s : DriverState) (k : Nat) (u : Bool) (p : Json) (evs : List DriverEvent) :
      s.inFlight = some k → s.alive = true →
      Matched (stepDriver s (.ack k u p)).1 evs →
      Matched s (.ack k u p :: evs)

lemma Matched.of_inFlight_none {s : DriverState} {evs : List DriverEvent}
    (h : Matched s evs) (hn : s.inFlight = none) : evs = [] := by
  cases h with
  | nil => rfl
  | timeout s k evs hk _ => rw [hn] at hk; cases hk
  | ack s k u p evs hk _ _ => rw [hn] at hk; cases hk

lemma runDriver_chain {s : DriverState} {evs : List DriverEvent}
    (h : Matched s evs) :
    ∀ last, s.inFlight = some last →
      List.Chain' (fun a b => b = a ∨ b = a + 1) (last :: (runDriver s evs).2) := by
  induction h with
  | nil s =>
    intro last _
    simp [runDriver]
  | timeout s k evs hk hm ih =>
    intro last hlast
    have hkl : k = last := by rw [hk] at hlast; injection hlast
    subst hkl
    by_cases hre : s.resendTimes > 5
    · have hstep : stepDriver s .timeout =
          ({ s with alive := false, thrown := true, inFlight := none }, []) := by
        simp [stepDriver, hk, hre]
      have hevs : evs = [] := by
        apply hm.of_inFlight_none
        rw [hstep]
      subst hevs
      simp [runDriver, hstep]
    · have hstep : stepDriver s .timeout =
          ({ s with inFlight := some k, resendTimes := s.resendTimes + 1 }, [k]) := by
        simp [stepDriver, hk, hre]
      have hrun : (runDriver s (.timeout :: evs)).2 =
          k :: (runDriver (stepDriver s .timeout).1 evs).2 := by
        simp [runDriver, hstep]
      rw [hrun]
      refine List.chain'_cons.mpr ⟨Or.inl rfl, ?_⟩
      exact ih k (by rw [hstep])
  | ack s k u p evs hk halive hm ih =>
    intro last hlast
    have hkl : k = last := by rw [hk] at hlast; injection hlast
    subst hkl
    cases u with
    | true =>
      have hstep : (stepDriver s (.ack k true p)).1.inFlight = none := by
        simp [stepDriver, halive]
      have hevs : evs = [] := hm.of_inFlight_none hstep
      subst hevs
      have : (runDriver s [DriverEvent.ack k true p]).2 =
          (stepDriver s (.ack k true p)).2 ++ [] := by
        simp [runDriver]
      rw [this]
      have : (stepDriver s (.ack k true p)).2 = [] := by
        simp [stepDriver, halive]
      rw [this]
      simp
    | false =>
      have hstep : stepDriver s (.ack k false p) =
          ({ s with resendTimes := 0, inFlight := some (k + 1) }, [k + 1]) := by
        simp [stepDriver, halive, sendChunkStep]
      have hrun : (runDriver s (.ack k false p :: evs)).2 =
          (k + 1) :: (runDriver (stepDriver s (.ack k false p)).1 evs).2 := by
        simp [runDriver, hstep]
      rw [hrun]
      refine List.chain'_cons.mpr ⟨Or.inr rfl, ?_⟩
      exact ih (k + 1) (by rw [hstep])

/-- C5: stop-and-wait chunk emission. Over any trace of genuine timer
fires and acknowledgements for the in-flight chunk, (a) the sequence of
chunk numbers the driver emits (starting from the chunk 0 sent by
`sendFile`) only ever repeats the in-flight chunk (timeout resend) or
steps up by exactly one, so fresh chunk numbers are emitted in strictly
increasing order; (b) a step emits chunk `k+1` only when it processes an
acknowledgement carrying chunk number `k`, and a timeout step re-emits
exactly the in-flight chunk; (c) every step emits at most one chunk (at
most one chunk is in flight). -/
theorem upload_stop_and_wait (evs : List DriverEvent)
    (h : Matched initDriver.1 evs) :
    List.Chain' (fun a b => b = a ∨ b = a + 1)
      (initDriver.2 ++ (runDriver initDriver.1 evs).2) ∧
    (∀ s e, (stepDriver s e).2 = [] ∨
      (∃ k, e = .timeout ∧ s.inFlight = some k ∧ (stepDriver s e).2 = [k]) ∨
      (∃ k u p, e = .ack k u p ∧ (stepDriver s e).2 = [k + 1])) ∧
    (∀ s e, (stepDriver s e).2.length ≤ 1) := by
  have hchar : ∀ s e, (stepDriver s e).2 = [] ∨
      (∃ k, e = .timeout ∧ s.inFlight = some k ∧ (stepDriver s e).2 = [k]) ∨
      (∃ k u p, e = .ack k u p ∧ (stepDriver s e).2 = [k + 1]) := by
    intro s e
    cases e with
    | timeout =>
      cases hf : s.inFlight with
      | none => left; simp [stepDriver, hf]
      | some k =>
        by_cases hre : s.resendTimes > 5
        · left; simp [stepDriver, hf, hre]
        · right; left; exact ⟨k, rfl, rfl, by simp [stepDriver, hf, hre]⟩
    | ack k u p =>
      by_cases halive : s.alive
      · cases u with
        | true => left; simp [stepDriver, halive]
        | false =>
          -- onChunkResponseMessage resets resendTimes to 0 before calling
          -- sendChunk, so the splice-and-throw guard never fires here
          right; right
          exact ⟨k, false, p, rfl, by simp [stepDriver, halive, sendChunkStep]⟩
      · left; simp [stepDriver, halive]
  refine ⟨?_, hchar, ?_⟩
  · have : initDriver.2 ++ (runDriver initDriver.1 evs).2 =
        0 :: (runDriver initDriver.1 evs).2 := rfl
    rw [this]
    exact runDriver_chain h 0 rfl
  · intro s e
    rcases hchar s e with h1 | ⟨k, _, _, h1⟩ | ⟨k, u, p, _, h1⟩ <;> simp [h1]

/-- C5 witness: `upload_stop_and_wait` on the concrete matched trace
`ack 0 (more chunks) · ack 1 (uploaded)`. -/
theorem upload_stop_and_wait_witness :
    List.Chain' (fun a b => b = a ∨ b = a + 1)
      (initDriver.2 ++ (runDriver initDriver.1
        [.ack 0 false Json.null, .ack 1 true Json.null]).2) :=
  (upload_stop_and_wait [.ack 0 false Json.null, .ack 1 true Json.null]
    (Matched.ack _ 0 false Json.null _ rfl rfl
      (Matched.ack _ 1 true Json.null _ rfl rfl (Matched.nil _)))).1

/-- C6 counterexample: the claim says the job is removed (and its future
rejected) once the retry counter exceeds 5, i.e. after 6 consecutive
5-second timeouts. After 6 consecutive timeouts the concrete job is still
in the uploading-files table; removal happens only on the 7th timeout, and
even then the future is never rejected — the promise is still pending
(`none`), the failure being a plain `throw` inside the timer callback. -/
theorem retry_exhaustion_counterexample :
    (runDriver initDriver.1 (List.replicate 6 .timeout)).1.alive = true ∧
    (runDriver initDriver.1 (List.replicate 7 .timeout)).1.alive = false ∧
    (runDriver initDriver.1 (List.replicate 7 .timeout)).1.promise = none ∧
    (runDriver initDriver.1 (List.replicate 7 .timeout)).1.thrown = true :=
  ⟨rfl, rfl, rfl, rfl⟩

lemma runDriver_append (s : DriverState) (l₁ l₂ : List DriverEvent) :
    runDriver s (l₁ ++ l₂) =
      ((runDriver (runDriver s l₁).1 l₂).1,
        (runDriver s l₁).2 ++ (runDriver (runDriver s l₁).1 l₂).2) := by
  induction l₁ generalizing s with
  | nil => simp [runDriver]
  | cons e l₁ ih => simp [runDriver, ih]

/-- C6 (amended): with no acknowledgement arriving, the job survives the
first 6 timeouts (the chunk is re-sent each time and the retry counter,
incremented after the resend, reaches `n`); on the 7th consecutive timeout
the guard `resendTimes > 5` finally holds, the job is spliced out of the
uploading-files table and an `Error` is thrown inside the timer callback —
the future returned by `sendFile` is NOT rejected: it stays pending
forever. -/
theorem retry_exhaustion_behavior (n : Nat) :
    (n ≤ 6 →
      (runDriver initDriver.1 (List.replicate n .timeout)).1.alive = true ∧
      (runDriver initDriver.1 (List.replicate n .timeout)).1.resendTimes = n ∧
      (runDriver initDriver.1 (List.replicate n .timeout)).2 = List.replicate n 0) ∧
    (7 ≤ n →
      (runDriver initDriver.1 (List.replicate n .timeout)).1.alive = false ∧
      (runDriver initDriver.1 (List.replicate n .timeout)).1.thrown = true ∧
      (runDriver initDriver.1 (List.replicate n .timeout)).1.promise = none) := by
  constructor
  · intro hn
    interval_cases n <;> exact ⟨rfl, rfl, rfl⟩
  · intro hn
    obtain ⟨m, rfl⟩ := Nat.exists_eq_add_of_le hn
    have hsplit : List.replicate (7 + m) DriverEvent.timeout =
        List.replicate 7 DriverEvent.timeout ++ List.replicate m DriverEvent.timeout := by
      rw [List.replicate_add]
    rw [hsplit, runDriver_append]
    have hdead : ∀ mm, runDriver (runDriver initDriver.1
        (List.replicate 7 DriverEvent.timeout)).1 (List.replicate mm DriverEvent.timeout) =
        ((runDriver initDriver.1 (List.replicate 7 DriverEvent.timeout)).1, []) := by
      intro mm
      induction mm with
      | zero => rfl
      | succ mm ih =>
        rw [List.replicate_succ]
        show runDriver _ (DriverEvent.timeout :: _) = _
        rw [runDriver]
        exact ih
    rw [hdead m]
    exact ⟨rfl, rfl, rfl⟩

/-- C6 witness: `retry_exhaustion_behavior` at exactly 7 timeouts. -/
theorem retry_exhaustion_behavior_witness :
    (runDriver initDriver.1 (List.replicate 7 .timeout)).1.alive = false ∧
    (runDriver initDriver.1 (List.replicate 7 .timeout)).1.thrown = true ∧
    (runDriver initDriver.1 (List.replicate 7 .timeout)).1.promise = none :=
  (retry_exhaustion_behavior 7).2 (by decide)

/-! ## Client-side pending-request table (`send` / `onMessage`)

The client's `requests` array holds `{messageId, cb}` entries. `send`
pushes an entry; `onMessage` looks the entry up by the response's
`messageId` and calls its callback. The callback resolves the promise
returned by `send`; JS promise resolution is idempotent, which
`resolveOnce` models. Callback invocations themselves are recorded in
`cbInvocations`. The `uploadingFiles` lookup of `onMessage` (which does
splice its entry) is modelled alongside to mirror the handler. -/

structure ClientState where
  requests : List String
  uploadingFiles : List String
  resolved : List (String × Json)
  cbInvocations : List (String × Json)
  fileResolved : List (String × Json)
  fileCbInvocations : List (String × Json)

/-- `send(type, payload)` with the socket OPEN: emit and push
`{messageId, cb}` onto `requests`. -/
def sendRequest (s : ClientState) (messageId : String) : ClientState :=
  { s with requests := s.requests ++ [messageId] }

/-- Resolving a JS promise: only the first resolution takes effect. -/
def resolveOnce (resolved : List (String × Json)) (mid : String) (p : Json) :
    List (String × Json) :=
  if (resolved.find? (fun q => q.1 == mid)).isSome then resolved
  else resolved ++ [(mid, p)]

/-- `onMessage(event)` (client): parse the response, look up the
uploading file by `messageId` (call its callback and splice it), then look
up the pending request by `messageId` and call its callback. Neither
lookup removes anything from `requests`. -/
def clientOnMessage (s : ClientState) (messageId : String) (payload : Json) :
    ClientState :=
  let s :=
    if (s.uploadingFiles.find? (fun f => f == messageId)).isSome then
      { s with
          fileCbInvocations := s.fileCbInvocations ++ [(messageId, payload)]
          fileResolved := resolveOnce s.fileResolved messageId payload
          uploadingFiles := s.uploadingFiles.erase messageId }
    else s
  if (s.requests.find? (fun r => r == messageId)).isSome then
    { s with
        cbInvocations := s.cbInvocations ++ [(messageId, payload)]
        resolved := resolveOnce s.resolved messageId payload }
  else s

/-- The payload the promise for `mid` was (first) resolved with. -/
def firstResolved (s : ClientState) (mid : String) : Option Json :=
  (s.resolved.find? (fun q => q.1 == mid)).map (·.2)

/-- A fresh client engine: no pending requests, no uploads. -/
def emptyClient : ClientState :=
  { requests := [], uploadingFiles := [], resolved := [], cbInvocations := []
    fileResolved := [], fileCbInvocations := [] }

lemma find?_append_of_none {α : Type} (p : α → Bool) (l₁ l₂ : List α)
    (h : l₁.find? p = none) : (l₁ ++ l₂).find? p = l₂.find? p := by
  induction l₁ with
  | nil => rfl
  | cons a l₁ ih =>
    by_cases ha : p a
    · rw [List.find?_cons_of_pos _ ha] at h
      cases h
    · rw [List.find?_cons_of_neg _ ha] at h
      rw [List.cons_append, List.find?_cons_of_neg _ ha]
      exact ih h

lemma resolveOnce_find (resolved : List (String × Json)) (mid : String) (p : Json) :
    (resolveOnce resolved mid p).find? (fun q => q.1 == mid) =
      ((resolved.find? (fun q => q.1 == mid)).orElse (fun _ => some (mid, p))) := by
  unfold resolveOnce
  by_cases hf : (resolved.find? (fun q => q.1 == mid)).isSome
  · rw [if_pos hf]
    obtain ⟨q, hq⟩ := Option.isSome_iff_exists.mp hf
    rw [hq]
    rfl
  · rw [if_neg hf]
    rw [Option.not_isSome_iff_eq_none] at hf
    rw [find?_append_of_none _ _ _ hf, hf]
    simp [List.find?]

lemma clientOnMessage_matching (s : ClientState) (mid : String) (p : Json)
    (hmid : mid ∈ s.requests) :
    (clientOnMessage s mid p).requests = s.requests ∧
    (clientOnMessage s mid p).cbInvocations = s.cbInvocations ++ [(mid, p)] ∧
    (clientOnMessage s mid p).resolved = resolveOnce s.resolved mid p := by
  unfold clientOnMessage
  have hfound : ∀ t : ClientState, t.requests = s.requests →
      (t.requests.find? (fun r => r == mid)).isSome = true := by
    intro t ht
    rw [ht, List.find?_isSome]
    exact ⟨mid, hmid, by simp⟩
  by_cases hfile : (s.uploadingFiles.find? (fun f => f == mid)).isSome
  · rw [if_pos hfile, if_pos (hfound _ rfl)]
    exact ⟨rfl, rfl, rfl⟩
  · rw [if_neg hfile, if_pos (hfound _ rfl)]
    exact ⟨rfl, rfl, rfl⟩

/-- C7 (amended): the pending-request entry for `m` is created when the
message is sent, but it is never removed — `onMessage` only looks it up.
Consequently every later response carrying the same `messageId m` invokes
the stored callback again (after `k` matching responses the callback has
run `k` more times); the future returned by `send` nevertheless settles
only once, with the payload of the first matching response, because JS
promise resolution is idempotent. -/
theorem pending_request_behavior (s0 : ClientState) (mid : String) (ps : List Json) :
    let s1 := sendRequest s0 mid
    let s2 := ps.foldl (fun s p => clientOnMessage s mid p) s1
    mid ∈ s2.requests ∧
    s2.cbInvocations = s1.cbInvocations ++ ps.map (fun p => (mid, p)) ∧
    firstResolved s2 mid = ((firstResolved s1 mid).orElse (fun _ => ps.head?)) := by
  intro s1 s2
  have hmid1 : mid ∈ s1.requests := by
    show mid ∈ s0.requests ++ [mid]
    simp
  have main : ∀ (ps : List Json) (s : ClientState), mid ∈ s.requests →
      mid ∈ (ps.foldl (fun s p => clientOnMessage s mid p) s).requests ∧
      (ps.foldl (fun s p => clientOnMessage s mid p) s).cbInvocations =
        s.cbInvocations ++ ps.map (fun p => (mid, p)) ∧
      (ps.foldl (fun s p => clientOnMessage s mid p) s).resolved.find?
          (fun q => q.1 == mid) =
        ((s.resolved.find? (fun q => q.1 == mid)).orElse
          (fun _ => ps.head?.map (fun p => (mid, p)))) := by
    intro ps
    induction ps with
    | nil =>
      intro s hs
      simp only [List.foldl_nil, List.map_nil, List.append_nil, List.head?_nil,
        Option.map_none']
      refine ⟨hs, by trivial, ?_⟩
      cases hf : s.resolved.find? (fun q => q.1 == mid) <;> rfl
    | cons p ps ih =>
      intro s hs
      simp only [List.foldl_cons]
      obtain ⟨hreq, hcb, hres⟩ := clientOnMessage_matching s mid p hs
      have hs' : mid ∈ (clientOnMessage s mid p).requests := by rw [hreq]; exact hs
      obtain ⟨ih1, ih2, ih3⟩ := ih (clientOnMessage s mid p) hs'
      refine ⟨ih1, ?_, ?_⟩
      · rw [ih2, hcb]
        simp
      · rw [ih3, hres, resolveOnce_find]
        cases hf : s.resolved.find? (fun q => q.1 == mid) <;> rfl
  obtain ⟨h1, h2, h3⟩ := main ps s1 hmid1
  refine ⟨h1, h2, ?_⟩
  unfold firstResolved
  rw [h3]
  cases hf : s1.resolved.find? (fun q => q.1 == mid) with
  | some q => rfl
  | none => cases ps <;> rfl

/-- C7 counterexample: send a request with messageId `"abcdefghij"`, then
deliver two responses with that same messageId. After the first response
the table entry is still present (the claim says it is removed), and the
second response invokes the stored callback again (two invocations in
total); only the promise value is unaffected by the second response. -/
theorem pending_request_counterexample :
    ("abcdefghij" ∈ (clientOnMessage (sendRequest emptyClient "abcdefghij")
        "abcdefghij" (Json.str "a")).requests) ∧
    ((clientOnMessage (clientOnMessage (sendRequest emptyClient "abcdefghij")
        "abcdefghij" (Json.str "a")) "abcdefghij" (Json.str "b")).cbInvocations.length = 2) ∧
    (firstResolved (clientOnMessage (clientOnMessage (sendRequest emptyClient "abcdefghij")
        "abcdefghij" (Json.str "a")) "abcdefghij" (Json.str "b")) "abcdefghij" =
      some (Json.str "a")) := by
  refine ⟨?_, rfl, rfl⟩
  show "abcdefghij" ∈ ["abcdefghij"]
  simp

/-! ## Server-side message validation and the connection handler

`MessageParseError extends CriticalError`; `MessageFormatError extends
NonCriticalError`. A `RangeError` thrown by an out-of-bounds `Buffer`
read and a `TypeError` thrown by property access on `null` are plain JS
errors — not `CriticalError`s — so the `error instanceof CriticalError`
test in `onmessage` routes them to the non-closing error response. -/

inductive VErr where
  | parse : String → VErr
  | format : String → VErr
  | range : String → VErr
  | typeErr : String → VErr

/-- `error instanceof CriticalError`. -/
def VErr.isCritical : VErr → Bool
  | .parse _ => true
  | _ => false

/-- `error.message`. -/
def VErr.message : VErr → String
  | .parse m => m
  | .format m => m
  | .range m => m
  | .typeErr m => m

/-- The id alphabet `[A-Za-z0-9_-]` on a character. -/
def isIdChar (c : Char) : Bool :=
  ('A' ≤ c && c ≤ 'Z') || ('a' ≤ c && c ≤ 'z') || ('0' ≤ c && c ≤ '9') ||
    c == '_' || c == '-'

/-- `isIdValid` / `isMessageIdValid`: a 10-character string over the id
alphabet (the length check, then the `/^[A-Za-z0-9_-]{10}$/` match). -/
def isIdValid (s : String) : Bool :=
  s.length == 10 && s.toList.all isIdChar

/-- The id alphabet on a raw ASCII byte (the validator checks the fileId
decoded from the first 10 frame bytes). -/
def isIdByte (b : Nat) : Bool :=
  (65 ≤ b && b ≤ 90) || (97 ≤ b && b ≤ 122) || (48 ≤ b && b ≤ 57) ||
    b == 95 || b == 45

/-- `isIdValid` applied to the decoded fileId slice. -/
def isIdBytesValid (bs : Bytes) : Bool :=
  bs.length == 10 && bs.all isIdByte

/-- `typeof` of a parsed JSON value (`typeof null` is `"object"`, arrays
are `"object"`). -/
def jsTypeof : Json → String
  | .null => "object"
  | .bool _ => "boolean"
  | .num _ => "number"
  | .str _ => "string"
  | .arr _ => "object"
  | .obj _ => "object"

/-- The TypeError text for property access on `null`. -/
def nullAccessMsg (k : String) : String :=
  "Cannot read properties of null (reading \x27" ++ k ++ "\x27)"

/-- `validateMessage(message)` at the level of the `JSON.parse` result of a
text frame (the `typeof message !== 'string'` guard never fires for text
frames; `JSON.parse` is the external parser, its outcome is the
`Option Json` argument — `none` for invalid JSON). The required-field
loop runs over `['messageId', 'type', 'payload']` in order, then the
field-type loop, then the id check. Indexing a parsed `null` throws a
TypeError on the first field. -/
def validateMessage (parsed : Option Json) : Except VErr Unit :=
  match parsed with
  | none => Except.error (.parse "Unexpected token in JSON")
  | some .null => Except.error (.typeErr (nullAccessMsg "messageId"))
  | some j =>
    if (jLookup j "messageId").isNone then
      Except.error (.format "\x27messageId\x27 field missed")
    else if (jLookup j "type").isNone then
      Except.error (.format "\x27type\x27 field missed")
    else if (jLookup j "payload").isNone then
      Except.error (.format "\x27payload\x27 field missed")
    else if jsTypeof ((jLookup j "messageId").getD .null) ≠ "string" then
      Except.error (.format "\x27messageId\x27 should be a string")
    else if jsTypeof ((jLookup j "type").getD .null) ≠ "string" then
      Except.error (.format "\x27type\x27 should be a string")
    else if jsTypeof ((jLookup j "payload").getD .null) ≠ "object" then
      Except.error (.format "\x27payload\x27 should be an object")
    else if ¬ isIdValid (match jLookup j "messageId" with
        | some (.str s) => s
        | _ => "") then
      Except.error (.format "Invalid message id")
    else Except.ok ()

/-- The RangeError text of Node's `Buffer` bounds check. -/
def rangeErrMsg : String := "The value of \x22offset\x22 is out of range"

/-- `validateBufferMessage(message)`: the `instanceof Buffer` guard holds
for binary frames; `message.readInt32BE(14)` performs Node's bounds check
`offset <= length - 4`, so on a frame shorter than 18 bytes it throws a
RangeError before any protocol error can arise. Past that read, the
sidecar slice must be `JSON.parse`-able (`sidecarOk` is the external
parser's verdict on the slice) and the embedded fileId must match the id
alphabet. -/
def validateBufferMessage (frame : Bytes) (sidecarOk : Bool) : Except VErr Unit :=
  if frame.length < 18 then
    Except.error (.range rangeErrMsg)
  else if ¬ sidecarOk then
    Except.error (.parse "Unexpected token in JSON")
  else if ¬ isIdBytesValid (frame.take 10) then
    Except.error (.format "Invalid file id")
  else Except.ok ()

/-- `MessageFactory.createError(error)`:
`{type: 'error', payload: {error}, messageId: nanoid(10)}` (the fresh id
is a parameter; id generation is external). -/
def createError (error : String) (messageId : String) : Json :=
  Json.obj [("type", Json.str "error"),
    ("payload", Json.obj [("error", Json.str error)]),
    ("messageId", Json.str messageId)]

/-- A frame as delivered by the `ws` transport: a text frame (with the
external `JSON.parse` outcome of its contents) or a binary frame (raw
bytes plus the parser's verdict on the sidecar slice). -/
inductive WsData where
  | text : Option Json → WsData
  | binary : Bytes → Bool → WsData

/-- Observable per-connection server state: the 3-second auth timer
(armed once, at connection open), the close code/reason (first close
wins), whether a Client record exists (authorized), the texts of error
messages sent with `MessageFactory.createError`, and responses sent with
`client.respond`/`clientToSave.respond`. -/
structure Conn where
  timerArmed : Bool
  closed : Option (Nat × String)
  authorized : Bool
  sentErrors : List String
  sentResponses : List (String × Json)

/-- `socket.close(code, reason)`: closing an already-closed socket is a
no-op. -/
def closeConn (c : Conn) (code : Nat) (reason : String) : Conn :=
  match c.closed with
  | some _ => c
  | none => { c with closed := some (code, reason) }

/-- The connection-open state: auth timer armed, nothing sent. -/
def initConn : Conn :=
  { timerArmed := true, closed := none, authorized := false,
    sentErrors := [], sentResponses := [] }

/-- The validation dispatch at the top of `onmessage`: text frames go
through `validateMessage`, `Buffer`s through `validateBufferMessage`. -/
def frameValidation : WsData → Except VErr Unit
  | .text parsed => validateMessage parsed
  | .binary frame sOk => validateBufferMessage frame sOk

/-- The server `onmessage` handler: validate (text frames through
`validateMessage`, `Buffer`s through `validateBufferMessage`); a critical
validation error closes with 1003 and the validator's message, any other
caught error is answered with `createError('Message Format Error: ' +
message)` without closing. A valid frame is then dispatched: for an
unauthorized connection, `handleFirstMessage` (non-`authorize` type closes
1008 "Unauthorized"; `authorize` runs the application's `onAuth`, a throw
closes 1008, success stores the Client record and responds under the
envelope's messageId with the auth data); for an authorized connection, a
duplicate `authorize` is silently ignored and other text frames go to the
application's `onMessage`, whose non-void result is sent as a response
(binary frames go to `handleBufferMessage`, the reassembler modelled
separately above, which does not touch the fields tracked here). -/
def connOnMessage (onAuth : Json → Except String Json)
    (onMsg : Json → Option Json) (c : Conn) (d : WsData) : Conn :=
  match frameValidation d with
  | .error e =>
    if e.isCritical then closeConn c 1003 e.message
    else { c with sentErrors := c.sentErrors ++ ["Message Format Error: " ++ e.message] }
  | .ok _ =>
    if c.authorized then
      match d with
      | .text (some j) =>
        if jStr? (jLookup j "type") = some "authorize" then c
        else
          match onMsg j with
          | some resp =>
            { c with sentResponses := c.sentResponses ++
                [((jStr? (jLookup j "messageId")).getD "", resp)] }
          | none => c
      | _ => c
    else
      match d with
      | .text (some j) =>
        if jStr? (jLookup j "type") ≠ some "authorize" then
          closeConn c 1008 "Unauthorized"
        else
          match onAuth ((jLookup j "payload").getD .null) with
          | .ok authData =>
            { c with
                authorized := true
                sentResponses := c.sentResponses ++
                  [((jStr? (jLookup j "messageId")).getD "", authData)] }
          | .error msg => closeConn c 1008 ("Authorization failed: " ++ msg)
      | _ =>
        -- an unauthorized binary frame reaches `JSON.parse(data as string)`,
        -- which throws into the outer catch and is only logged
        c

/-- An event on one server connection. -/
inductive ConnEvent where
  | msg : WsData → ConnEvent
  | timerFire : ConnEvent

/-- One connection step: the 'message' listener first cancels the auth
timer (`clearTimeout(msgWaiter)`) and then runs `onmessage`; the timer,
when it fires while armed, closes with 1013 "Authorization required". A
cancelled timer never fires, and the timer is never re-armed. -/
def connStep (onAuth : Json → Except String Json) (onMsg : Json → Option Json)
    (c : Conn) : ConnEvent → Conn
  | .msg d => connOnMessage onAuth onMsg { c with timerArmed := false } d
  | .timerFire =>
    if c.timerArmed then
      closeConn { c with timerArmed := false } 1013 "Authorization required"
    else c

/-- Run a connection over a list of events. -/
def runConn (onAuth : Json → Except String Json) (onMsg : Json → Option Json)
    (c : Conn) (evs : List ConnEvent) : Conn :=
  evs.foldl (connStep onAuth onMsg) c

lemma validateMessage_no_messageId (j : Json) (hnul : j ≠ Json.null)
    (hmid : jLookup j "messageId" = none) :
    validateMessage (some j) =
      Except.error (.format "\x27messageId\x27 field missed") := by
  cases j with
  | null => exact absurd rfl hnul
  | bool b => rfl
  | num n => rfl
  | str s => rfl
  | arr xs => rfl
  | obj fields =>
    simp [validateMessage, hmid]

/-- C8: a text frame that parses as JSON but has no `messageId` property is
answered by exactly one error message — built by `createError`, so a
NewMessage with `type = "error"` whose `payload.error` is
`"Message Format Error: 'messageId' field missed"` — and the connection is
not closed; this holds whether or not the connection is authorized (the
parsed `null`, on which JS property access throws with a different error
text, is the one JSON value excluded). -/
theorem format_error_response (onAuth : Json → Except String Json)
    (onMsg : Json → Option Json) (c : Conn) (j : Json)
    (hnul : j ≠ Json.null) (hmid : jLookup j "messageId" = none) :
    (connStep onAuth onMsg c (.msg (.text (some j)))).closed = c.closed ∧
    (connStep onAuth onMsg c (.msg (.text (some j)))).sentErrors =
      c.sentErrors ++ ["Message Format Error: \x27messageId\x27 field missed"] ∧
    (connStep onAuth onMsg c (.msg (.text (some j)))).authorized = c.authorized ∧
    (∀ e mid, jLookup (createError e mid) "type" = some (Json.str "error") ∧
      jLookup (createError e mid) "payload" =
        some (Json.obj [("error", Json.str e)])) := by
  have hv := validateMessage_no_messageId j hnul hmid
  have hstep : connStep onAuth onMsg c (.msg (.text (some j))) =
      { c with timerArmed := false, sentErrors := c.sentErrors ++
          ["Message Format Error: \x27messageId\x27 field missed"] } := by
    show connOnMessage onAuth onMsg { c with timerArmed := false } (.text (some j)) = _
    unfold connOnMessage
    have hfv : frameValidation (.text (some j)) =
        Except.error (.format "\x27messageId\x27 field missed") := hv
    rw [hfv]
    rfl
  refine ⟨by rw [hstep], by rw [hstep], by rw [hstep], ?_⟩
  intro e mid
  exact ⟨rfl, rfl⟩

/-- C8 witness: `format_error_response` on an authorized connection
receiving exactly the frame of scenario S4, whose parse result is
the object with the single property `foo = "bar"`. -/
theorem format_error_response_witness :
    (connStep (fun _ => Except.error "") (fun _ => none)
      { initConn with timerArmed := false, authorized := true }
      (.msg (.text (some (Json.obj [("foo", Json.str "bar")]))))).closed =
      ({ initConn with timerArmed := false, authorized := true } : Conn).closed ∧
    (connStep (fun _ => Except.error "") (fun _ => none)
      { initConn with timerArmed := false, authorized := true }
      (.msg (.text (some (Json.obj [("foo", Json.str "bar")]))))).sentErrors =
      ({ initConn with timerArmed := false, authorized := true } : Conn).sentErrors ++
        ["Message Format Error: \x27messageId\x27 field missed"] :=
  ⟨(format_error_response (fun _ => Except.error "") (fun _ => none)
      { initConn with timerArmed := false, authorized := true }
      (Json.obj [("foo", Json.str "bar")])
      (fun h => Json.noConfusion h) rfl).1,
   (format_error_response (fun _ => Except.error "") (fun _ => none)
      { initConn with timerArmed := false, authorized := true }
      (Json.obj [("foo", Json.str "bar")])
      (fun h => Json.noConfusion h) rfl).2.1⟩

/-- C9 (amended): a binary frame shorter than the 18-byte fixed header
makes `validateBufferMessage` throw a `RangeError` from
`readInt32BE(14)`'s bounds check — which is NOT the critical kind — so the
server answers with a non-closing `Message Format Error` message and the
connection stays open; it does not close with 1003. -/
theorem short_binary_frame_behavior (onAuth : Json → Except String Json)
    (onMsg : Json → Option Json) (c : Conn) (frame : Bytes) (sOk : Bool)
    (h : frame.length < 18) :
    validateBufferMessage frame sOk = Except.error (.range rangeErrMsg) ∧
    (VErr.range rangeErrMsg).isCritical = false ∧
    (connStep onAuth onMsg c (.msg (.binary frame sOk))).closed = c.closed ∧
    (connStep onAuth onMsg c (.msg (.binary frame sOk))).sentErrors =
      c.sentErrors ++ ["Message Format Error: " ++ rangeErrMsg] := by
  have hv : validateBufferMessage frame sOk = Except.error (.range rangeErrMsg) := by
    unfold validateBufferMessage
    rw [if_pos h]
  have hstep : connStep onAuth onMsg c (.msg (.binary frame sOk)) =
      { c with timerArmed := false, sentErrors := c.sentErrors ++
          ["Message Format Error: " ++ rangeErrMsg] } := by
    show connOnMessage onAuth onMsg { c with timerArmed := false } (.binary frame sOk) = _
    unfold connOnMessage
    have hfv : frameValidation (.binary frame sOk) =
        Except.error (.range rangeErrMsg) := hv
    rw [hfv]
    rfl
  exact ⟨hv, rfl, by rw [hstep], by rw [hstep]⟩

/-- C9 witness: `short_binary_frame_behavior` on the empty binary frame. -/
theorem short_binary_frame_behavior_witness :
    validateBufferMessage [] true = Except.error (.range rangeErrMsg) ∧
    (connStep (fun _ => Except.error "") (fun _ => none) initConn
      (.msg (.binary [] true))).closed = initConn.closed :=
  ⟨(short_binary_frame_behavior (fun _ => Except.error "") (fun _ => none)
      initConn [] true (by decide)).1,
   (short_binary_frame_behavior (fun _ => Except.error "") (fun _ => none)
      initConn [] true (by decide)).2.2.1⟩

/-- C9 counterexample: for the concrete empty binary frame (length 0 < 18)
the claim says the server always closes with 1003; instead the connection
is not closed at all and a non-closing error message is sent. -/
theorem short_binary_frame_counterexample :
    (connStep (fun _ => Except.error "") (fun _ => none) initConn
      (.msg (.binary [] true))).closed = none ∧
    (connStep (fun _ => Except.error "") (fun _ => none) initConn
      (.msg (.binary [] true))).sentErrors =
      ["Message Format Error: " ++ rangeErrMsg] :=
  ⟨rfl, rfl⟩

lemma connOnMessage_timerArmed (onAuth : Json → Except String Json)
    (onMsg : Json → Option Json) (c : Conn) (d : WsData) :
    (connOnMessage onAuth onMsg c d).timerArmed = c.timerArmed := by
  unfold connOnMessage closeConn
  repeat' split
  all_goals rfl

lemma connStep_msg_timerArmed (onAuth : Json → Except String Json)
    (onMsg : Json → Option Json) (c : Conn) (d : WsData) :
    (connStep onAuth onMsg c (.msg d)).timerArmed = false := by
  show (connOnMessage onAuth onMsg { c with timerArmed := false } d).timerArmed = false
  rw [connOnMessage_timerArmed]

lemma connStep_timerArmed_false (onAuth : Json → Except String Json)
    (onMsg : Json → Option Json) (c : Conn) (e : ConnEvent)
    (h : c.timerArmed = false) :
    (connStep onAuth onMsg c e).timerArmed = false := by
  cases e with
  | msg d => exact connStep_msg_timerArmed onAuth onMsg c d
  | timerFire =>
    show (if c.timerArmed then _ else c).timerArmed = false
    rw [h]
    exact h

lemma foldl_connStep_timerArmed_false (onAuth : Json → Except String Json)
    (onMsg : Json → Option Json) (evs : List ConnEvent) :
    ∀ c : Conn, c.timerArmed = false →
      (List.foldl (connStep onAuth onMsg) c evs).timerArmed = false := by
  induction evs with
  | nil => intro c h; exact h
  | cons e evs ih =>
    intro c h
    rw [List.foldl_cons]
    exact ih _ (connStep_timerArmed_false onAuth onMsg c e h)

/-- C10: the 3-second auth timer is cancelled by the first inbound frame of
any kind and is never re-armed: after any event trace containing a message
event, the timer is disarmed (part 1). In particular, an unauthorized
connection whose only frame was the format-failing text `{"foo":"bar"}`
(answered with an error message, not a close) ends up unauthorized, open,
with the timer disarmed, and stays in exactly that state under any number
of subsequent timer-fire events — the authorization timeout can never
close it (part 2). -/
theorem auth_timer_cancelled_once (onAuth : Json → Except String Json)
    (onMsg : Json → Option Json) (pre post : List ConnEvent) (d : WsData) :
    (runConn onAuth onMsg initConn (pre ++ .msg d :: post)).timerArmed = false ∧
    (∀ n, runConn onAuth onMsg initConn
        (.msg (.text (some (Json.obj [("foo", Json.str "bar")]))) ::
          List.replicate n .timerFire) =
      { initConn with
          timerArmed := false
          sentErrors := ["Message Format Error: \x27messageId\x27 field missed"] }) := by
  constructor
  · unfold runConn
    rw [List.foldl_append, List.foldl_cons]
    exact foldl_connStep_timerArmed_false onAuth onMsg post _
      (connStep_msg_timerArmed onAuth onMsg _ d)
  · intro n
    have hc1 : connStep onAuth onMsg initConn
        (.msg (.text (some (Json.obj [("foo", Json.str "bar")])))) =
        { initConn with
            timerArmed := false
            sentErrors := ["Message Format Error: \x27messageId\x27 field missed"] } := rfl
    show List.foldl (connStep onAuth onMsg) initConn (_ :: List.replicate n .timerFire) = _
    rw [List.foldl_cons, hc1]
    induction n with
    | zero => rfl
    | succ n ih =>
      rw [List.replicate_succ, List.foldl_cons]
      have hfire : connStep onAuth onMsg
          { initConn with
              timerArmed := false
              sentErrors := ["Message Format Error: \x27messageId\x27 field missed"] }
          .timerFire =
          { initConn with
              timerArmed := false
              sentErrors := ["Message Format Error: \x27messageId\x27 field missed"] } := rfl
      rw [hfire]
      exact ih

end CTProto
